import Mathlib

/-
Shallow embedding of `src/packages/express-decorator/src/index.ts` (the
`applyExpressDecorator` module of malmajs).

Modelling conventions:
* JavaScript functions and middleware objects are identified by `Nat` ids;
  `Handler.plain f` is the function `f` itself used as a request handler with
  no wrapping, `Handler.boundHandle o` is `o.handle.bind(o)` for the
  middleware object `o`, and `Handler.boundMethod i n` is
  `descriptor.value.bind(instance)` for the own method named `n` of the
  controller instance with id `i`.
* `Reflect` metadata is an explicit side table (`MetaEnv`): `ctrlMeta` keyed
  by object id models `Reflect.getMetadata('malmajs:controller', instance)`,
  and `propMeta` keyed by object id and property name models
  `Reflect.getMetadata('malmajs:handler', instance, name)`.  A slot holds
  `.absent` (no metadata), `.malformed` (a value failing the shape guard) or
  `.valid m`.
* The Express `Application` is modelled by its observable registration state:
  the ordered list of mounts performed by `app.use(path, ...mws, router)`
  (line 158), each carrying the routes previously registered on the fresh
  `Router()` of that controller (lines 131, 151-155).  `World` bundles the
  metadata tables with that registration list; `useControllers` threads it.
* Thrown `Error`s become `Except`/`Option BindError` values; the loop
  `for (const index in controllers)` visits array indices in ascending order,
  which the `Nat` index argument reproduces.
-/

/-- HTTP verbs accepted by the handler decorators (`type HandlerMethod`,
line 44 of the source). -/
inductive HandlerMethod where
  | get
  | post
  | put
  | delete
  | patch
deriving DecidableEq, Repr

/-- `type MiddlewareOrHandler = Middleware | Constructor<Middleware> |
RequestHandler` (line 14): a plain handler function, an already-built
middleware object exposing `handle`, or a middleware class still to be
instantiated through the container. -/
inductive MiddlewareOrHandler where
  | handlerFn (f : Nat)
  | mwObject (obj : Nat)
  | mwClass (ctorId : Nat)
deriving DecidableEq, Repr

/-- `isConstructor` (lines 4-6): in the embedding the runtime prototype test
is exactly the discrimination of the `mwClass` tag (arrow handler functions
have no `prototype`, so only class references pass the test). -/
def isConstructor : MiddlewareOrHandler → Bool
  | .mwClass _ => true
  | _ => false

/-- A request handler as it ends up registered on the router/application. -/
inductive Handler where
  | plain (f : Nat)
  | boundHandle (obj : Nat)
  | boundMethod (instId : Nat) (name : String)
deriving DecidableEq, Repr

/-- `interface ControllerMetadata` (lines 16-19). -/
structure ControllerMetadata where
  path : String
  middlewares : List MiddlewareOrHandler
deriving DecidableEq, Repr

/-- `interface HandlerMetadata` (lines 45-49). -/
structure HandlerMetadata where
  method : HandlerMethod
  path : String
  middlewares : List MiddlewareOrHandler
deriving DecidableEq, Repr

/-- Contents of one `Reflect` metadata slot: nothing was defined there, a
value of the wrong shape was defined there, or a well-shaped record. -/
inductive StoredMeta (α : Type) where
  | absent
  | malformed
  | valid (m : α)
deriving DecidableEq, Repr

/-- `isControllerMetadata` (lines 20-30): the shape guard succeeds exactly on
well-shaped controller metadata records. -/
def isControllerMetadata : StoredMeta ControllerMetadata → Bool
  | .valid _ => true
  | _ => false

/-- `isHandlerMetadata` (lines 50-61): the shape guard succeeds exactly on
well-shaped handler metadata records. -/
def isHandlerMetadata : StoredMeta HandlerMetadata → Bool
  | .valid _ => true
  | _ => false

/-- A controller instance as the binder observes it: its identity and the own
property names of its prototype in declaration order
(`Object.getOwnPropertyNames`, line 134), each tagged with whether the
property descriptor's value is a function (line 142). -/
structure ControllerObj where
  id : Nat
  props : List (String × Bool)
deriving DecidableEq, Repr

/-- An argument of `app.useControllers` (line 91): either an already-built
instance (`typeof controller === 'object'`) or a controller class reference
that must be resolved through the container. -/
inductive ControllerInput where
  | obj (c : ControllerObj)
  | classRef (ctorId : Nat)
deriving DecidableEq, Repr

/-- `interface Container` (lines 85-87).  The single polymorphic `get` is
split by result type: resolving a controller class yields a controller
instance, resolving a middleware class yields a middleware object id. -/
structure Container where
  getCtrl : Nat → ControllerObj
  getMw : Nat → Nat

/-- The `Reflect` metadata side tables (read-only during binding). -/
structure MetaEnv where
  ctrlMeta : Nat → StoredMeta ControllerMetadata
  propMeta : Nat → String → StoredMeta HandlerMetadata

/-- The errors thrown by `transformMiddlewares` / `useControllers`, carrying
the data interpolated into the corresponding `Error` messages. -/
inductive BindError where
  | missingResolverMiddleware
  | missingResolverController (index : Nat)
  | invalidControllerMetadata (index : Nat)
  | invalidHandlerMetadata (name : String) (index : Nat)
deriving DecidableEq, Repr

/-- Body of the `map` inside `transformMiddlewares` (lines 98-110): a class
reference is resolved through the container (throwing without one) and its
`handle` is bound to the resolved instance; a plain function is returned
unchanged; a middleware object gets its `handle` bound to itself. -/
def transformOne (container : Option Container) :
    MiddlewareOrHandler → Except BindError Handler
  | .mwClass c =>
    match container with
    | none => .error .missingResolverMiddleware
    | some ct => .ok (.boundHandle (ct.getMw c))
  | .handlerFn f => .ok (.plain f)
  | .mwObject o => .ok (.boundHandle o)

/-- `transformMiddlewares` (lines 97-111): element-wise transformation, the
first thrown error aborting the whole call. -/
def transformMiddlewares (container : Option Container) :
    List MiddlewareOrHandler → Except BindError (List Handler)
  | [] => .ok []
  | mw :: rest =>
    match transformOne container mw with
    | .error e => .error e
    | .ok h =>
      match transformMiddlewares container rest with
      | .error e => .error e
      | .ok hs => .ok (h :: hs)

/-- Lines 115-124: an instance is used as-is; a class reference requires the
container (line 118-120) and is resolved through it. -/
def resolveController (container : Option Container) (idx : Nat) :
    ControllerInput → Except BindError ControllerObj
  | .obj c => .ok c
  | .classRef k =>
    match container with
    | none => .error (.missingResolverController idx)
    | some ct => .ok (ct.getCtrl k)

/-- One registered route of a controller's fresh `Router()`
(`router[method](path, ...mws, boundMethod)`, lines 151-155). -/
structure RouterReg where
  verb : HandlerMethod
  path : String
  chain : List Handler
deriving DecidableEq, Repr

/-- One `app.use(basePath, ...mws, router)` mount (line 158) together with
the routes its router carries. -/
structure MountReg where
  basePath : String
  middlewares : List Handler
  routes : List RouterReg
deriving DecidableEq, Repr

/-- The inner property loop of `useControllers` (lines 136-156): skip the
`constructor` property (137-139) and non-function own properties (141-144),
throw on a method whose handler metadata fails the shape guard (146-149),
and otherwise register `(verb, path, routeMiddlewares ++ [boundMethod])` on
the controller's router (151-155), in declaration order. -/
def bindRoutes (container : Option Container) (env : MetaEnv) (idx : Nat)
    (instId : Nat) : List (String × Bool) → Except BindError (List RouterReg)
  | [] => .ok []
  | (name, isFn) :: rest =>
    if name = "constructor" then bindRoutes container env idx instId rest
    else match isFn with
    | false => bindRoutes container env idx instId rest
    | true =>
      match env.propMeta instId name with
      | .valid hm =>
        match transformMiddlewares container hm.middlewares with
        | .error e => .error e
        | .ok hs =>
          match bindRoutes container env idx instId rest with
          | .error e => .error e
          | .ok rs => .ok (⟨hm.method, hm.path, hs ++ [.boundMethod instId name]⟩ :: rs)
      | _ => .error (.invalidHandlerMetadata name idx)

/-- Body of the controller loop of `useControllers` (lines 114-159): resolve
the controller, check its mount metadata (126-129), register the routes on a
fresh router, transform the mount-level middlewares and mount the router
(158).  The resulting `MountReg` is what `app.use` applies; an error means
the loop body threw and nothing was applied for this controller. -/
def bindController (container : Option Container) (env : MetaEnv) (idx : Nat)
    (input : ControllerInput) : Except BindError MountReg :=
  match resolveController container idx input with
  | .error e => .error e
  | .ok inst =>
    match env.ctrlMeta inst.id with
    | .valid cm =>
      match bindRoutes container env idx inst.id inst.props with
      | .error e => .error e
      | .ok rs =>
        match transformMiddlewares container cm.middlewares with
        | .error e => .error e
        | .ok ms => .ok ⟨cm.path, ms, rs⟩
    | _ => .error (.invalidControllerMetadata idx)

/-- The sequence of mounts `useControllers` would apply, as a pure function
of the metadata tables: the loop stops at the first thrown error, keeping
the mounts already produced. -/
def bindAll (container : Option Container) (env : MetaEnv) :
    Nat → List ControllerInput → List MountReg × Option BindError
  | _, [] => ([], none)
  | idx, c :: rest =>
    match bindController container env idx c with
    | .ok m =>
      (m :: (bindAll container env (idx + 1) rest).1,
       (bindAll container env (idx + 1) rest).2)
    | .error e => ([], some e)

/-- The mutable world the binder runs in: the metadata tables plus the
application's registration list.  Binding only ever reads the tables. -/
structure World extends MetaEnv where
  appRegs : List MountReg

/-- `app.use(basePath, ...mws, router)` as a state update: append one mount
to the application's registrations. -/
def appUse (w : World) (m : MountReg) : World :=
  { w with appRegs := w.appRegs ++ [m] }

/-- The controller loop threading the world: each successfully bound
controller is mounted immediately (before the next controller is examined);
a thrown error stops the loop with the world as mutated so far. -/
def useControllersAux (container : Option Container) :
    Nat → World → List ControllerInput → World × Option BindError
  | _, w, [] => (w, none)
  | idx, w, c :: rest =>
    match bindController container w.toMetaEnv idx c with
    | .ok m => useControllersAux container (idx + 1) (appUse w m) rest
    | .error e => (w, some e)

/-- `app.useControllers(...controllers)` (lines 113-160): run the controller
loop from index 0 on the current world. -/
def useControllers (container : Option Container) (w : World)
    (cs : List ControllerInput) : World × Option BindError :=
  useControllersAux container 0 w cs

/-- `Controller(path, middlewares)` (lines 31-42): the class decorator,
attaching controller metadata to the target's prototype — a world update
performed at annotation time, before any binding. -/
def Controller (path : String) (middlewares : List MiddlewareOrHandler)
    (targetId : Nat) (w : World) : World :=
  { w with ctrlMeta := fun i =>
      if i = targetId then .valid ⟨path, middlewares⟩ else w.ctrlMeta i }

/-- `createHandlerDecorator(method)` (lines 62-78): the method decorator,
attaching handler metadata to the target under the property key. -/
def createHandlerDecorator (method : HandlerMethod) (path : String)
    (middlewares : List MiddlewareOrHandler) (targetId : Nat) (key : String)
    (w : World) : World :=
  { w with propMeta := fun i n =>
      if i = targetId ∧ n = key then .valid ⟨method, path, middlewares⟩
      else w.propMeta i n }

/-- The route a single own property contributes on a successful binding run:
`none` for the constructor, non-function properties (both skipped) and
failing cases, `some` with the registered route for an annotated method.
Used to state that route registrations follow declaration order. -/
def routeOfProp (container : Option Container) (env : MetaEnv) (instId : Nat) :
    String × Bool → Option RouterReg
  | (name, isFn) =>
    if name = "constructor" then none
    else match isFn with
    | false => none
    | true =>
      match env.propMeta instId name with
      | .valid hm =>
        match transformMiddlewares container hm.middlewares with
        | .ok hs => some ⟨hm.method, hm.path, hs ++ [.boundMethod instId name]⟩
        | .error _ => none
      | _ => none

/-- Modelled from the spec (section 3, "Binding result"): the effective route
table of one mount under the host framework's mounting semantics —
`fullPath = basePath + routePath` and handler chain
`mount-level middleware ++ route-level middleware ++ bound method`.  The
mounting mechanism itself is Express, an external collaborator outside this
repository. -/
def flattenMount (m : MountReg) : List (HandlerMethod × String × List Handler) :=
  m.routes.map (fun r => (r.verb, m.basePath ++ r.path, m.middlewares ++ r.chain))

/-
Concrete fixtures used by witnesses and counterexamples: a controller object
with id 0 whose prototype declares `constructor`, an annotated method
`hello` and a non-function own property `version`; mount middleware are the
plain handler functions 1 and 2, the route middleware of `hello` is the
plain handler function 3.
-/

/-- Example controller instance. -/
def egCtrl : ControllerObj :=
  ⟨0, [("constructor", true), ("hello", true), ("version", false)]⟩

/-- Example metadata tables: controller 0 is mounted at "/api" with mount
middlewares [1, 2]; its method `hello` handles GET "/h" with route
middleware [3].  Every other slot is empty. -/
def egEnv : MetaEnv :=
  { ctrlMeta := fun i =>
      if i = 0 then .valid ⟨"/api", [.handlerFn 1, .handlerFn 2]⟩ else .absent,
    propMeta := fun i n =>
      if i = 0 ∧ n = "hello" then .valid ⟨.get, "/h", [.handlerFn 3]⟩
      else .absent }

/-- Example world: the example tables and an application with no
registrations yet. -/
def egWorld : World := { toMetaEnv := egEnv, appRegs := [] }

/-- The mount that binding `egCtrl` produces. -/
def egMount : MountReg :=
  ⟨"/api", [.plain 1, .plain 2],
    [⟨.get, "/h", [.plain 3, .boundMethod 0 "hello"]⟩]⟩

example : bindController none egEnv 0 (.obj egCtrl) = .ok egMount := rfl

/-- A container resolving every controller class to `egCtrl` and every
middleware class to the object with the same id. -/
def egContainer : Container := ⟨fun _ => egCtrl, fun k => k⟩

/-- A controller instance with an own method `foo` that carries no handler
metadata anywhere in `badEnv`. -/
def badCtrl : ControllerObj := ⟨5, [("foo", true)]⟩

/-- A controller instance (id 9) that carries no mount metadata in `egEnv`. -/
def noMetaCtrl : ControllerObj := ⟨9, []⟩

/-- Tables in which every controller has valid (empty) mount metadata but no
property carries handler metadata. -/
def badEnv : MetaEnv :=
  { ctrlMeta := fun _ => .valid ⟨"", []⟩, propMeta := fun _ _ => .absent }

/-- World built over `badEnv` with no registrations yet. -/
def badWorld : World := { toMetaEnv := badEnv, appRegs := [] }


/-- On a successful run, the routes registered for a controller are exactly
the per-property contributions, in declaration order. -/
lemma bindRoutes_ok_filterMap (container : Option Container) (env : MetaEnv)
    (idx instId : Nat) (props : List (String × Bool)) :
    ∀ rs, bindRoutes container env idx instId props = .ok rs →
      rs = props.filterMap (routeOfProp container env instId) := by
  induction props with
  | nil =>
    intro rs h
    simp only [bindRoutes, Except.ok.injEq] at h
    simp [h.symm]
  | cons p rest ih =>
    intro rs h
    obtain ⟨name, isFn⟩ := p
    by_cases hc : name = "constructor"
    · simp only [bindRoutes, if_pos hc] at h
      simp only [List.filterMap_cons, routeOfProp, if_pos hc]
      exact ih rs h
    · cases isFn with
      | false =>
        simp only [bindRoutes, if_neg hc] at h
        simp only [List.filterMap_cons, routeOfProp, if_neg hc]
        exact ih rs h
      | true =>
        cases hm : env.propMeta instId name with
        | valid md =>
          cases ht : transformMiddlewares container md.middlewares with
          | error e =>
            simp only [bindRoutes, if_neg hc, hm, ht] at h
            exact Except.noConfusion h
          | ok hs =>
            cases hr : bindRoutes container env idx instId rest with
            | error e =>
              simp only [bindRoutes, if_neg hc, hm, ht, hr] at h
              exact Except.noConfusion h
            | ok rs0 =>
              simp only [bindRoutes, if_neg hc, hm, ht, hr, Except.ok.injEq] at h
              subst h
              simp only [List.filterMap_cons, routeOfProp, if_neg hc, hm, ht]
              simp [ih rs0 hr]
        | absent =>
          simp only [bindRoutes, if_neg hc, hm] at h
          exact Except.noConfusion h
        | malformed =>
          simp only [bindRoutes, if_neg hc, hm] at h
          exact Except.noConfusion h

/-- A non-function own property is skipped: removing it from the property
list leaves the property loop's outcome unchanged. -/
lemma bindRoutes_skip_nonFn (container : Option Container) (env : MetaEnv)
    (idx instId : Nat) (n : String) (l2 : List (String × Bool)) :
    ∀ l1, bindRoutes container env idx instId (l1 ++ (n, false) :: l2) =
      bindRoutes container env idx instId (l1 ++ l2) := by
  intro l1
  induction l1 with
  | nil =>
    by_cases hc : n = "constructor" <;> simp [bindRoutes, hc]
  | cons p rest ih =>
    obtain ⟨name, isFn⟩ := p
    by_cases hc : name = "constructor"
    · simp only [List.cons_append, bindRoutes, if_pos hc]
      exact ih
    · cases isFn with
      | false =>
        simp only [List.cons_append, bindRoutes, if_neg hc]
        exact ih
      | true =>
        simp only [List.cons_append, bindRoutes, if_neg hc]
        cases hm : env.propMeta instId name with
        | valid md =>
          simp only [hm]
          cases ht : transformMiddlewares container md.middlewares with
          | error e => rfl
          | ok hs => simp only [List.append_eq, ih]
        | absent => simp only [hm]
        | malformed => simp only [hm]

/-- An own method (function-valued, not the constructor) whose handler
metadata fails the shape guard makes the property loop throw. -/
lemma bindRoutes_error_of_unannotated (container : Option Container)
    (env : MetaEnv) (idx instId : Nat) (name : String)
    (props : List (String × Bool)) (hmem : (name, true) ∈ props)
    (hc : name ≠ "constructor")
    (hmeta : isHandlerMetadata (env.propMeta instId name) = false) :
    ∃ e, bindRoutes container env idx instId props = .error e := by
  induction props with
  | nil => cases hmem
  | cons p rest ih =>
    rcases List.mem_cons.mp hmem with hp | hp
    · subst hp
      simp only [bindRoutes, if_neg hc]
      cases hm : env.propMeta instId name with
      | valid md =>
        rw [hm] at hmeta
        exact absurd hmeta (by simp [isHandlerMetadata])
      | absent => simp only [hm]; exact ⟨_, rfl⟩
      | malformed => simp only [hm]; exact ⟨_, rfl⟩
    · obtain ⟨e, he⟩ := ih hp
      obtain ⟨pname, pfn⟩ := p
      by_cases hpc : pname = "constructor"
      · exact ⟨e, by simp only [bindRoutes, if_pos hpc]; exact he⟩
      · cases pfn with
        | false => exact ⟨e, by simp only [bindRoutes, if_neg hpc]; exact he⟩
        | true =>
          simp only [bindRoutes, if_neg hpc]
          cases hm : env.propMeta instId pname with
          | valid md =>
            simp only [hm]
            cases ht : transformMiddlewares container md.middlewares with
            | error e2 => exact ⟨e2, by simp only [ht]⟩
            | ok hs => exact ⟨e, by simp only [ht, he]⟩
          | absent => simp only [hm]; exact ⟨_, rfl⟩
          | malformed => simp only [hm]; exact ⟨_, rfl⟩

/-- A controller object whose mount metadata fails the shape guard makes the
loop body throw the invalid-metadata error for its index. -/
lemma bindController_invalidMeta (container : Option Container) (env : MetaEnv)
    (i : Nat) (c : ControllerObj)
    (h : isControllerMetadata (env.ctrlMeta c.id) = false) :
    bindController container env i (.obj c) = .error (.invalidControllerMetadata i) := by
  simp only [bindController, resolveController]
  cases hm : env.ctrlMeta c.id with
  | valid cm =>
    rw [hm] at h
    exact absurd h (by simp [isControllerMetadata])
  | absent => simp only [hm]
  | malformed => simp only [hm]

/-- Destructuring a successful loop-body run on an instance: the mount's base
path and middleware come from the controller metadata, and its routes are the
per-property contributions in declaration order. -/
lemma bindController_obj_ok (container : Option Container) (env : MetaEnv)
    (idx : Nat) (c : ControllerObj) (m : MountReg) (cm : ControllerMetadata)
    (mhs : List Handler)
    (h : bindController container env idx (.obj c) = .ok m)
    (hcm : env.ctrlMeta c.id = .valid cm)
    (hmhs : transformMiddlewares container cm.middlewares = .ok mhs) :
    m.basePath = cm.path ∧ m.middlewares = mhs ∧
      m.routes = c.props.filterMap (routeOfProp container env c.id) := by
  simp only [bindController, resolveController, hcm] at h
  cases hr : bindRoutes container env idx c.id c.props with
  | error e =>
    rw [hr] at h
    exact Except.noConfusion h
  | ok rs =>
    rw [hr, hmhs] at h
    simp only [Except.ok.injEq] at h
    subst h
    exact ⟨rfl, rfl, bindRoutes_ok_filterMap container env idx c.id c.props rs hr⟩

/-- On a successful loop-body run, the resolved instance has well-shaped
mount metadata and the mount's routes follow declaration order. -/
lemma bindController_routes (container : Option Container) (env : MetaEnv)
    (idx : Nat) (input : ControllerInput) (m : MountReg) (inst : ControllerObj)
    (h : bindController container env idx input = .ok m)
    (hres : resolveController container idx input = .ok inst) :
    m.routes = inst.props.filterMap (routeOfProp container env inst.id) := by
  cases hm : env.ctrlMeta inst.id with
  | valid cm =>
    cases hr : bindRoutes container env idx inst.id inst.props with
    | error e =>
      simp only [bindController, hres, hm, hr] at h
      exact Except.noConfusion h
    | ok rs =>
      cases ht : transformMiddlewares container cm.middlewares with
      | error e =>
        simp only [bindController, hres, hm, hr, ht] at h
        exact Except.noConfusion h
      | ok ms =>
        simp only [bindController, hres, hm, hr, ht, Except.ok.injEq] at h
        subst h
        exact bindRoutes_ok_filterMap container env idx inst.id inst.props rs hr
  | absent =>
    simp only [bindController, hres, hm] at h
    exact Except.noConfusion h
  | malformed =>
    simp only [bindController, hres, hm] at h
    exact Except.noConfusion h

/-- The stateful controller loop in terms of the pure one: it appends the
mounts `bindAll` computes from the (unchanged) metadata tables and reports
the same error. -/
lemma useControllersAux_spec (container : Option Container) :
    ∀ (cs : List ControllerInput) (idx : Nat) (w : World),
      useControllersAux container idx w cs =
        ({ w with appRegs := w.appRegs ++ (bindAll container w.toMetaEnv idx cs).1 },
         (bindAll container w.toMetaEnv idx cs).2) := by
  intro cs
  induction cs with
  | nil =>
    intro idx w
    simp [useControllersAux, bindAll]
  | cons c rest ih =>
    intro idx w
    cases hb : bindController container w.toMetaEnv idx c with
    | ok m =>
      have h2 := ih (idx + 1) (appUse w m)
      simp only [useControllersAux, hb, bindAll]
      rw [h2]
      simp [appUse]
    | error e =>
      simp [useControllersAux, hb, bindAll]

/-- A successful run of the controller loop produces exactly one mount per
controller, in enumeration order: the k-th mount comes from the k-th
controller. -/
lemma bindAll_none_spec (container : Option Container) (env : MetaEnv) :
    ∀ (cs : List ControllerInput) (idx : Nat),
      (bindAll container env idx cs).2 = none →
      (bindAll container env idx cs).1.length = cs.length ∧
      ∀ k (hk : k < cs.length) (hk2 : k < (bindAll container env idx cs).1.length),
        bindController container env (idx + k) (cs.get ⟨k, hk⟩) =
          .ok ((bindAll container env idx cs).1.get ⟨k, hk2⟩) := by
  intro cs
  induction cs with
  | nil =>
    intro idx _
    refine ⟨rfl, ?_⟩
    intro k hk
    exact absurd hk (by simp)
  | cons c rest ih =>
    intro idx hnone
    cases hb : bindController container env idx c with
    | error e =>
      rw [show bindAll container env idx (c :: rest) = ([], some e) by
        simp [bindAll, hb]] at hnone
      exact Option.noConfusion hnone
    | ok m =>
      have hform : bindAll container env idx (c :: rest) =
          (m :: (bindAll container env (idx + 1) rest).1,
           (bindAll container env (idx + 1) rest).2) := by
        simp [bindAll, hb]
      rw [hform] at hnone
      obtain ⟨hlen, hget⟩ := ih (idx + 1) hnone
      rw [hform]
      constructor
      · simpa using hlen
      · intro k hk hk2
        cases k with
        | zero => simpa using hb
        | succ j =>
          have hj : j < rest.length := by simpa using hk
          have hj2 : j < (bindAll container env (idx + 1) rest).1.length := by
            simpa using hk2
          have := hget j hj hj2
          rw [show idx + (j + 1) = idx + 1 + j by omega]
          simpa using this

/-- If the loop body throws at some position, the controller loop as a whole
reports an error (possibly an earlier one). -/
lemma bindAll_isSome_of_error_at (container : Option Container) (env : MetaEnv) :
    ∀ (cs : List ControllerInput) (idx k : Nat) (hk : k < cs.length),
      (∃ e, bindController container env (idx + k) (cs.get ⟨k, hk⟩) = .error e) →
      (bindAll container env idx cs).2.isSome := by
  intro cs
  induction cs with
  | nil =>
    intro idx k hk
    exact absurd hk (by simp)
  | cons c rest ih =>
    intro idx k hk hbad
    cases hb : bindController container env idx c with
    | error e => simp [bindAll, hb]
    | ok m =>
      cases k with
      | zero =>
        obtain ⟨e, he⟩ := hbad
        rw [Nat.add_zero] at he
        rw [show (c :: rest).get ⟨0, hk⟩ = c from rfl] at he
        rw [hb] at he
        exact Except.noConfusion he
      | succ j =>
        have hj : j < rest.length := by simpa using hk
        have : (bindAll container env (idx + 1) rest).2.isSome := by
          apply ih (idx + 1) j hj
          obtain ⟨e, he⟩ := hbad
          refine ⟨e, ?_⟩
          rw [show idx + 1 + j = idx + (j + 1) by omega]
          exact he
        simpa [bindAll, hb] using this

/-- If the first `k` controllers bind successfully and the loop body throws
at position `k`, the loop reports exactly that error, having produced the
mounts of the first `k` controllers. -/
lemma bindAll_fail_at (container : Option Container) (env : MetaEnv) :
    ∀ (cs : List ControllerInput) (idx k : Nat) (hk : k < cs.length)
      (er : BindError),
      (∀ j (hj : j < k), ∃ m,
        bindController container env (idx + j) (cs.get ⟨j, Nat.lt_trans hj hk⟩) = .ok m) →
      bindController container env (idx + k) (cs.get ⟨k, hk⟩) = .error er →
      (bindAll container env idx cs).2 = some er ∧
      (bindAll container env idx cs).1 = (bindAll container env idx (cs.take k)).1 ∧
      (bindAll container env idx (cs.take k)).2 = none ∧
      (bindAll container env idx (cs.take k)).1.length = k := by
  intro cs
  induction cs with
  | nil =>
    intro idx k hk
    exact absurd hk (by simp)
  | cons c rest ih =>
    intro idx k hk er hprev hbad
    cases k with
    | zero =>
      rw [Nat.add_zero] at hbad
      rw [show (c :: rest).get ⟨0, hk⟩ = c from rfl] at hbad
      simp [bindAll, hbad]
    | succ j =>
      obtain ⟨m, hm⟩ := hprev 0 (Nat.succ_pos j)
      rw [Nat.add_zero] at hm
      rw [show (c :: rest).get ⟨0, _⟩ = c from rfl] at hm
      have hj : j < rest.length := by simpa using hk
      have ihr := ih (idx + 1) j hj er ?_ ?_
      · obtain ⟨h1, h2, h3, h4⟩ := ihr
        refine ⟨?_, ?_, ?_, ?_⟩
        · simpa [bindAll, hm] using h1
        · simp only [List.take_succ_cons]
          simp only [bindAll, hm]
          simp [h2]
        · simp only [List.take_succ_cons]
          simpa [bindAll, hm] using h3
        · simp only [List.take_succ_cons]
          simp only [bindAll, hm]
          simpa using h4
      · intro j2 hj2
        obtain ⟨m2, hm2⟩ := hprev (j2 + 1) (Nat.succ_lt_succ hj2)
        refine ⟨m2, ?_⟩
        rw [show idx + 1 + j2 = idx + (j2 + 1) by omega]
        exact hm2
      · rw [show idx + 1 + j = idx + (j + 1) by omega]
        exact hbad

/-- Element-wise correspondence of a successful middleware transformation. -/
lemma transformMiddlewares_mem (container : Option Container)
    (mw : MiddlewareOrHandler) (h : Handler)
    (hone : transformOne container mw = .ok h) :
    ∀ (mws : List MiddlewareOrHandler) (hs : List Handler),
      transformMiddlewares container mws = .ok hs → mw ∈ mws → h ∈ hs := by
  intro mws
  induction mws with
  | nil =>
    intro hs _ hmem
    cases hmem
  | cons m0 rest ih =>
    intro hs htr hmem
    cases ht0 : transformOne container m0 with
    | error e =>
      simp only [transformMiddlewares, ht0] at htr
      exact Except.noConfusion htr
    | ok h0 =>
      cases htr2 : transformMiddlewares container rest with
      | error e =>
        simp only [transformMiddlewares, ht0, htr2] at htr
        exact Except.noConfusion htr
      | ok hs0 =>
        simp only [transformMiddlewares, ht0, htr2, Except.ok.injEq] at htr
        subst htr
        rcases List.mem_cons.mp hmem with heq | hmem2
        · subst heq
          rw [hone] at ht0
          simp only [Except.ok.injEq] at ht0
          subst ht0
          exact List.mem_cons_self _ _
        · exact List.mem_cons_of_mem _ (ih hs0 htr2 hmem2)

/-- Claim C1: for a controller instance carrying mount metadata with base
path `cm.path` and an annotated method `name` carrying route metadata `hm`,
a successful binding run registers that method at verb `hm.method` and full
path `cm.path ++ hm.path`, with effective handler chain equal to the
transformed mount-level middleware, then the transformed route-level
middleware, then the bound method itself. -/
theorem binding_registers_full_path_and_chain
    (container : Option Container) (env : MetaEnv) (idx : Nat)
    (c : ControllerObj) (m : MountReg) (cm : ControllerMetadata)
    (name : String) (hm : HandlerMetadata) (mhs hs : List Handler)
    (hok : bindController container env idx (.obj c) = .ok m)
    (hmount : env.ctrlMeta c.id = .valid cm)
    (hprop : (name, true) ∈ c.props)
    (hname : name ≠ "constructor")
    (hmeta : env.propMeta c.id name = .valid hm)
    (hmw : transformMiddlewares container cm.middlewares = .ok mhs)
    (hrw : transformMiddlewares container hm.middlewares = .ok hs) :
    (hm.method, cm.path ++ hm.path, mhs ++ hs ++ [Handler.boundMethod c.id name])
      ∈ flattenMount m := by
  obtain ⟨hb, hmid, hroutes⟩ :=
    bindController_obj_ok container env idx c m cm mhs hok hmount hmw
  have hrp : routeOfProp container env c.id (name, true) =
      some ⟨hm.method, hm.path, hs ++ [Handler.boundMethod c.id name]⟩ := by
    simp [routeOfProp, hname, hmeta, hrw]
  have hmem : (⟨hm.method, hm.path, hs ++ [Handler.boundMethod c.id name]⟩ : RouterReg)
      ∈ m.routes := by
    rw [hroutes]
    exact List.mem_filterMap.mpr ⟨(name, true), hprop, hrp⟩
  simp only [flattenMount]
  refine List.mem_map.mpr ⟨_, hmem, ?_⟩
  simp [hb, hmid, List.append_assoc]

/-- Witness for C1 at the spec's example shape: mount middleware [1, 2] and
route middleware [3] yield the chain [1, 2, 3, boundMethod]. -/
theorem binding_registers_full_path_and_chain_witness :
    (HandlerMethod.get, "/api/h",
      [Handler.plain 1, Handler.plain 2, Handler.plain 3,
       Handler.boundMethod 0 "hello"]) ∈ flattenMount egMount :=
  binding_registers_full_path_and_chain none egEnv 0 egCtrl egMount
    ⟨"/api", [.handlerFn 1, .handlerFn 2]⟩ "hello" ⟨.get, "/h", [.handlerFn 3]⟩
    [Handler.plain 1, Handler.plain 2] [Handler.plain 3]
    rfl rfl (by decide) (by decide) rfl rfl rfl

/-- Claim C2: a successful binding run applies exactly one mount per
controller to the application, in enumeration order of the controllers
(the k-th applied mount comes from the k-th controller), and each mount's
routes are the per-property contributions of its resolved instance in
declaration order (one route per annotated method, none for skipped
properties). -/
theorem binding_counts_and_order (container : Option Container) (w : World)
    (cs : List ControllerInput)
    (hok : (useControllers container w cs).2 = none) :
    (useControllers container w cs).1.appRegs =
      w.appRegs ++ (bindAll container w.toMetaEnv 0 cs).1 ∧
    (bindAll container w.toMetaEnv 0 cs).1.length = cs.length ∧
    ∀ k (hk : k < cs.length)
      (hk2 : k < (bindAll container w.toMetaEnv 0 cs).1.length),
      bindController container w.toMetaEnv k (cs.get ⟨k, hk⟩) =
        .ok ((bindAll container w.toMetaEnv 0 cs).1.get ⟨k, hk2⟩) ∧
      ∀ inst, resolveController container k (cs.get ⟨k, hk⟩) = .ok inst →
        ((bindAll container w.toMetaEnv 0 cs).1.get ⟨k, hk2⟩).routes =
          inst.props.filterMap (routeOfProp container w.toMetaEnv inst.id) := by
  have hspec : useControllers container w cs =
      ({ w with appRegs := w.appRegs ++ (bindAll container w.toMetaEnv 0 cs).1 },
       (bindAll container w.toMetaEnv 0 cs).2) :=
    useControllersAux_spec container cs 0 w
  have hnone : (bindAll container w.toMetaEnv 0 cs).2 = none := by
    rw [hspec] at hok
    exact hok
  obtain ⟨hlen, hget⟩ := bindAll_none_spec container w.toMetaEnv cs 0 hnone
  refine ⟨by rw [hspec], hlen, ?_⟩
  intro k hk hk2
  have h1 := hget k hk hk2
  rw [Nat.zero_add] at h1
  refine ⟨h1, ?_⟩
  intro inst hres
  exact bindController_routes container w.toMetaEnv k _ _ inst h1 hres

/-- Witness for C2 on a one-controller collection: binding succeeds, exactly
one mount is produced, and it is the mount of that controller. -/
theorem binding_counts_and_order_witness :
    (bindAll none egWorld.toMetaEnv 0 [ControllerInput.obj egCtrl]).1.length = 1 ∧
    bindController none egWorld.toMetaEnv 0 (ControllerInput.obj egCtrl) =
      .ok egMount :=
  ⟨(binding_counts_and_order none egWorld [ControllerInput.obj egCtrl] rfl).2.1,
   ((binding_counts_and_order none egWorld [ControllerInput.obj egCtrl] rfl).2.2
      0 (by decide) (by decide)).1⟩

/-- Counterexample to claim C3 as stated: a controller whose own method
`foo` carries no route metadata is not silently skipped — `useControllers`
throws the invalid-metadata error naming the method, and no registration is
applied at all. -/
theorem unannotated_method_not_skipped_cex :
    (useControllers none badWorld [.obj badCtrl]).2 =
      some (.invalidHandlerMetadata "foo" 0) ∧
    (useControllers none badWorld [.obj badCtrl]).1.appRegs = [] :=
  ⟨rfl, rfl⟩

/-- Claim C3 (amended): during binding, an own non-constructor method
(function-valued property) that carries no well-shaped route metadata makes
the binder throw; it is non-function own properties (and the constructor)
that are silently skipped. -/
theorem unannotated_method_throws (container : Option Container)
    (env : MetaEnv) (idx : Nat) (c : ControllerObj) (name : String)
    (hprop : (name, true) ∈ c.props) (hname : name ≠ "constructor")
    (hmeta : isHandlerMetadata (env.propMeta c.id name) = false) :
    ∃ e, bindController container env idx (.obj c) = .error e := by
  cases hmm : env.ctrlMeta c.id with
  | valid cm =>
    obtain ⟨e, he⟩ := bindRoutes_error_of_unannotated container env idx c.id
      name c.props hprop hname hmeta
    refine ⟨e, ?_⟩
    simp only [bindController, resolveController, hmm, he]
  | absent =>
    exact ⟨_, bindController_invalidMeta container env idx c
      (by simp [isControllerMetadata, hmm])⟩
  | malformed =>
    exact ⟨_, bindController_invalidMeta container env idx c
      (by simp [isControllerMetadata, hmm])⟩

/-- Witness for the amended C3: binding the fixture controller with the
unannotated method `foo` throws. -/
theorem unannotated_method_throws_witness :
    ∃ e, bindController none badEnv 0 (.obj badCtrl) = .error e :=
  unannotated_method_throws none badEnv 0 badCtrl "foo" (by decide) (by decide)
    rfl

/-- Claim C4: the binder is asymmetric over a controller's own properties —
a non-function own property is skipped without error and contributes no
registration (removing it changes nothing), while a function-valued own
property other than the constructor that lacks well-shaped route metadata
makes the property loop throw. -/
theorem binder_property_asymmetry :
    (∀ (container : Option Container) (env : MetaEnv) (idx instId : Nat)
       (n : String) (l1 l2 : List (String × Bool)),
       bindRoutes container env idx instId (l1 ++ (n, false) :: l2) =
         bindRoutes container env idx instId (l1 ++ l2)) ∧
    (∀ (container : Option Container) (env : MetaEnv) (idx instId : Nat)
       (name : String) (props : List (String × Bool)),
       (name, true) ∈ props → name ≠ "constructor" →
       isHandlerMetadata (env.propMeta instId name) = false →
       ∃ e, bindRoutes container env idx instId props = .error e) :=
  ⟨fun container env idx instId n l1 l2 =>
     bindRoutes_skip_nonFn container env idx instId n l2 l1,
   fun container env idx instId name props h1 h2 h3 =>
     bindRoutes_error_of_unannotated container env idx instId name props h1 h2 h3⟩

/-- Witness for C4: dropping the non-function property `version` leaves the
fixture's route registration unchanged, while the unannotated method `foo`
makes the loop throw. -/
theorem binder_property_asymmetry_witness :
    (bindRoutes none egEnv 0 0 [("version", false), ("hello", true)] =
       bindRoutes none egEnv 0 0 [("hello", true)]) ∧
    (∃ e, bindRoutes none badEnv 0 5 [("foo", true)] = .error e) :=
  ⟨binder_property_asymmetry.1 none egEnv 0 0 "version" [] [("hello", true)],
   binder_property_asymmetry.2 none badEnv 0 5 "foo" [("foo", true)]
     (by decide) (by decide) rfl⟩

/-- Claim C5: a controller whose mount metadata is absent or malformed is
never silently skipped — `useControllers` reports an error whatever the
controller's position, and when all earlier controllers bind successfully
the reported error is exactly the invalid-controller-metadata error at that
index. -/
theorem missing_mount_metadata_fails (container : Option Container)
    (w : World) (cs : List ControllerInput) (k : Nat) (hk : k < cs.length)
    (c : ControllerObj)
    (hget : cs.get ⟨k, hk⟩ = .obj c)
    (hmeta : isControllerMetadata (w.ctrlMeta c.id) = false) :
    (useControllers container w cs).2.isSome ∧
    ((∀ j (hj : j < k), ∃ m,
        bindController container w.toMetaEnv j
          (cs.get ⟨j, Nat.lt_trans hj hk⟩) = .ok m) →
      (useControllers container w cs).2 =
        some (.invalidControllerMetadata k)) := by
  have herr : bindController container w.toMetaEnv k (cs.get ⟨k, hk⟩) =
      .error (.invalidControllerMetadata k) := by
    rw [hget]
    exact bindController_invalidMeta container w.toMetaEnv k c hmeta
  have hspec : useControllers container w cs =
      ({ w with appRegs := w.appRegs ++ (bindAll container w.toMetaEnv 0 cs).1 },
       (bindAll container w.toMetaEnv 0 cs).2) :=
    useControllersAux_spec container cs 0 w
  constructor
  · rw [hspec]
    apply bindAll_isSome_of_error_at container w.toMetaEnv cs 0 k hk
    exact ⟨_, by rw [Nat.zero_add]; exact herr⟩
  · intro hprev
    rw [hspec]
    have hfail := bindAll_fail_at container w.toMetaEnv cs 0 k hk
      (.invalidControllerMetadata k) ?_ ?_
    · exact hfail.1
    · intro j hj
      obtain ⟨m, hm⟩ := hprev j hj
      exact ⟨m, by rw [Nat.zero_add]; exact hm⟩
    · rw [Nat.zero_add]
      exact herr

/-- Witness for C5: a controller with no mount metadata makes binding fail
with the invalid-controller-metadata error at its index. -/
theorem missing_mount_metadata_fails_witness :
    (useControllers none egWorld [ControllerInput.obj noMetaCtrl]).2.isSome ∧
    (useControllers none egWorld [ControllerInput.obj noMetaCtrl]).2 =
      some (.invalidControllerMetadata 0) :=
  ⟨(missing_mount_metadata_fails none egWorld [ControllerInput.obj noMetaCtrl]
      0 (by decide) noMetaCtrl rfl rfl).1,
   (missing_mount_metadata_fails none egWorld [ControllerInput.obj noMetaCtrl]
      0 (by decide) noMetaCtrl rfl rfl).2
     (fun j hj => absurd hj (Nat.not_lt_zero j))⟩

/-- Claim C6: a class reference supplied without a container fails with the
missing-resolver error, both for controllers and for middlewares; with a
container, a controller class reference binds exactly as the instance the
container resolves it to, so a resolver returning a validly annotated
instance makes binding succeed. -/
theorem resolver_requirements :
    (∀ (env : MetaEnv) (idx k : Nat),
       bindController none env idx (.classRef k) =
         .error (.missingResolverController idx)) ∧
    (∀ k : Nat,
       transformOne none (.mwClass k) = .error .missingResolverMiddleware) ∧
    (∀ (ct : Container) (env : MetaEnv) (idx k : Nat) (m : MountReg),
       bindController (some ct) env idx (.obj (ct.getCtrl k)) = .ok m →
       bindController (some ct) env idx (.classRef k) = .ok m) :=
  ⟨fun _ _ _ => rfl, fun _ => rfl, fun _ _ _ _ _ h => h⟩

/-- Witness for C6: class reference 7 fails without a container and binds to
the resolved instance's mount with one. -/
theorem resolver_requirements_witness :
    bindController none egEnv 0 (.classRef 7) =
      .error (.missingResolverController 0) ∧
    transformOne none (.mwClass 7) = .error .missingResolverMiddleware ∧
    bindController (some egContainer) egEnv 0 (.classRef 7) = .ok egMount :=
  ⟨resolver_requirements.1 egEnv 0 7,
   resolver_requirements.2.1 7,
   resolver_requirements.2.2 egContainer egEnv 0 7 egMount rfl⟩

/-- Claim C7: middleware transformation uses a plain handler function
unchanged (the registered handler is the function itself, unwrapped) and
turns a middleware-capability object into its `handle` bound to that same
instance; this carries over element-wise to any successful transformation of
a middleware list. -/
theorem middleware_transformation_shapes :
    (∀ (container : Option Container) (f : Nat),
       transformOne container (.handlerFn f) = .ok (.plain f)) ∧
    (∀ (container : Option Container) (o : Nat),
       transformOne container (.mwObject o) = .ok (.boundHandle o)) ∧
    (∀ (container : Option Container) (mws : List MiddlewareOrHandler)
       (hs : List Handler) (f : Nat),
       transformMiddlewares container mws = .ok hs →
       .handlerFn f ∈ mws → Handler.plain f ∈ hs) ∧
    (∀ (container : Option Container) (mws : List MiddlewareOrHandler)
       (hs : List Handler) (o : Nat),
       transformMiddlewares container mws = .ok hs →
       .mwObject o ∈ mws → Handler.boundHandle o ∈ hs) :=
  ⟨fun _ _ => rfl, fun _ _ => rfl,
   fun container mws hs f htr hmem =>
     transformMiddlewares_mem container (.handlerFn f) (.plain f) rfl mws hs
       htr hmem,
   fun container mws hs o htr hmem =>
     transformMiddlewares_mem container (.mwObject o) (.boundHandle o) rfl mws
       hs htr hmem⟩

/-- Witness for C7 on a concrete list: the function 1 passes through
unchanged and the middleware object 2 appears as its bound `handle`. -/
theorem middleware_transformation_shapes_witness :
    transformOne none (.handlerFn 4) = .ok (.plain 4) ∧
    transformOne none (.mwObject 6) = .ok (.boundHandle 6) ∧
    Handler.plain 1 ∈ [Handler.plain 1, Handler.boundHandle 2] ∧
    Handler.boundHandle 2 ∈ [Handler.plain 1, Handler.boundHandle 2] :=
  ⟨middleware_transformation_shapes.1 none 4,
   middleware_transformation_shapes.2.1 none 6,
   middleware_transformation_shapes.2.2.1 none [.handlerFn 1, .mwObject 2]
     [Handler.plain 1, Handler.boundHandle 2] 1 rfl (by decide),
   middleware_transformation_shapes.2.2.2 none [.handlerFn 1, .mwObject 2]
     [Handler.plain 1, Handler.boundHandle 2] 2 rfl (by decide)⟩

/-- Claim C8: binding is idempotent — running `useControllers` a second time
over the same controller collection, against the world the first run
produced, reports the same outcome and appends exactly the same registration
list as the first run did. -/
theorem binding_idempotent (container : Option Container) (w : World)
    (cs : List ControllerInput) :
    (useControllers container (useControllers container w cs).1 cs).2 =
      (useControllers container w cs).2 ∧
    (useControllers container w cs).1.appRegs.drop w.appRegs.length =
      (useControllers container (useControllers container w cs).1 cs).1.appRegs.drop
        (useControllers container w cs).1.appRegs.length := by
  have hw1 : useControllers container w cs =
      ({ w with appRegs := w.appRegs ++ (bindAll container w.toMetaEnv 0 cs).1 },
       (bindAll container w.toMetaEnv 0 cs).2) :=
    useControllersAux_spec container cs 0 w
  have hw2 : useControllers container
      ({ w with appRegs := w.appRegs ++ (bindAll container w.toMetaEnv 0 cs).1 }) cs =
      ({ w with appRegs := (w.appRegs ++ (bindAll container w.toMetaEnv 0 cs).1) ++
          (bindAll container w.toMetaEnv 0 cs).1 },
       (bindAll container w.toMetaEnv 0 cs).2) :=
    useControllersAux_spec container cs 0
      ({ w with appRegs := w.appRegs ++ (bindAll container w.toMetaEnv 0 cs).1 })
  have hfst : (useControllers container w cs).1 =
      { w with appRegs := w.appRegs ++ (bindAll container w.toMetaEnv 0 cs).1 } := by
    rw [hw1]
  constructor
  · rw [hfst, hw2, hw1]
  · rw [hfst, hw2]
    show (w.appRegs ++ (bindAll container w.toMetaEnv 0 cs).1).drop w.appRegs.length =
      ((w.appRegs ++ (bindAll container w.toMetaEnv 0 cs).1) ++
        (bindAll container w.toMetaEnv 0 cs).1).drop
        (w.appRegs ++ (bindAll container w.toMetaEnv 0 cs).1).length
    rw [List.drop_left, List.drop_left]

/-- Claim C9: binding only reads the metadata tables — after
`useControllers` runs, both tables are unchanged (controller inputs are
immutable values, and the registration list is the only world component the
binder writes). -/
theorem binding_preserves_metadata (container : Option Container) (w : World)
    (cs : List ControllerInput) :
    (useControllers container w cs).1.ctrlMeta = w.ctrlMeta ∧
    (useControllers container w cs).1.propMeta = w.propMeta := by
  have hw1 : useControllers container w cs =
      ({ w with appRegs := w.appRegs ++ (bindAll container w.toMetaEnv 0 cs).1 },
       (bindAll container w.toMetaEnv 0 cs).2) :=
    useControllersAux_spec container cs 0 w
  rw [hw1]
  exact ⟨rfl, rfl⟩

/-- Claim C10: binding is not atomic on error — when the first controller
with missing or malformed mount metadata sits at index `k`, `useControllers`
throws the invalid-metadata error for index `k`, yet the mounts of the `k`
controllers before it have already been applied to the application and
remain in place. -/
theorem binding_not_atomic_on_error (container : Option Container) (w : World)
    (cs : List ControllerInput) (k : Nat) (hk : k < cs.length)
    (c : ControllerObj)
    (hget : cs.get ⟨k, hk⟩ = .obj c)
    (hmeta : isControllerMetadata (w.ctrlMeta c.id) = false)
    (hprev : ∀ j (hj : j < k), ∃ m,
      bindController container w.toMetaEnv j
        (cs.get ⟨j, Nat.lt_trans hj hk⟩) = .ok m) :
    (useControllers container w cs).2 =
      some (.invalidControllerMetadata k) ∧
    (useControllers container w cs).1.appRegs =
      w.appRegs ++ (bindAll container w.toMetaEnv 0 (cs.take k)).1 ∧
    (bindAll container w.toMetaEnv 0 (cs.take k)).2 = none ∧
    (bindAll container w.toMetaEnv 0 (cs.take k)).1.length = k := by
  have herr : bindController container w.toMetaEnv (0 + k) (cs.get ⟨k, hk⟩) =
      .error (.invalidControllerMetadata k) := by
    rw [Nat.zero_add, hget]
    exact bindController_invalidMeta container w.toMetaEnv k c hmeta
  have hfail := bindAll_fail_at container w.toMetaEnv cs 0 k hk
    (.invalidControllerMetadata k)
    (fun j hj => by
      obtain ⟨m, hm⟩ := hprev j hj
      exact ⟨m, by rw [Nat.zero_add]; exact hm⟩)
    herr
  have hspec : useControllers container w cs =
      ({ w with appRegs := w.appRegs ++ (bindAll container w.toMetaEnv 0 cs).1 },
       (bindAll container w.toMetaEnv 0 cs).2) :=
    useControllersAux_spec container cs 0 w
  obtain ⟨h1, h2, h3, h4⟩ := hfail
  refine ⟨?_, ?_, h3, h4⟩
  · rw [hspec]
    exact h1
  · rw [hspec]
    show w.appRegs ++ (bindAll container w.toMetaEnv 0 cs).1 =
      w.appRegs ++ (bindAll container w.toMetaEnv 0 (cs.take k)).1
    rw [h2]

/-- Witness for C10: with a valid controller first and a metadata-less
controller second, binding throws at index 1, but the first controller's
mount has already been applied and remains in place. -/
theorem binding_not_atomic_on_error_witness :
    (useControllers none egWorld
        [ControllerInput.obj egCtrl, ControllerInput.obj noMetaCtrl]).2 =
      some (.invalidControllerMetadata 1) ∧
    (useControllers none egWorld
        [ControllerInput.obj egCtrl, ControllerInput.obj noMetaCtrl]).1.appRegs =
      egWorld.appRegs ++ (bindAll none egWorld.toMetaEnv 0
        ([ControllerInput.obj egCtrl, ControllerInput.obj noMetaCtrl].take 1)).1 ∧
    (bindAll none egWorld.toMetaEnv 0
        ([ControllerInput.obj egCtrl, ControllerInput.obj noMetaCtrl].take 1)).2 =
      none ∧
    (bindAll none egWorld.toMetaEnv 0
        ([ControllerInput.obj egCtrl, ControllerInput.obj noMetaCtrl].take 1)).1.length =
      1 :=
  binding_not_atomic_on_error none egWorld
    [ControllerInput.obj egCtrl, ControllerInput.obj noMetaCtrl] 1 (by decide)
    noMetaCtrl rfl rfl
    (fun j hj => by
      have hj0 : j = 0 := by omega
      subst hj0
      exact ⟨egMount, rfl⟩)
